import Mathlib

/-!
Shallow embedding of `src/main.rs` (Solana USDC transfer backfill).

The program walks the signature history of one wallet in pages of up to
1000 records, stops at a 24-hour cutoff or an empty page, fetches each
transaction with the jsonParsed encoding, classifies `spl-token`
transfer/transferChecked instructions against a configured mint and wallet,
and finally sorts the rendered event lines and joins them.  The network
client (`RpcClient`) is an external collaborator and is modelled as a
record of response functions; everything downstream of its responses is
translated directly from the source.
-/

namespace UsdcIndex

/-- Constant `USDC_MINT_ADDRESS` from `src/main.rs` line 11. -/
def USDC_MINT_ADDRESS : String := "Es9vMFrzaCERH16Cdv83hA5KaM6rDx8JEX5Rk3z3aZ9o"

/-- Constant `WALLET_ADDRESS` from `src/main.rs` line 12. -/
def WALLET_ADDRESS : String := "7cMEhpt9y3inBNVv8fNnuaEbx7hKHZnLvR1KWKKxuDDU"

/-- A serde_json-style JSON value, the payload type of
`ParsedInstruction.parsed` in `solana_transaction_status`. -/
inductive Json where
  | null : Json
  | bool : Bool → Json
  | num : Int → Json
  | str : String → Json
  | arr : List Json → Json
  | obj : List (String × Json) → Json

/-- Model of `serde_json::Value::get(key)`: object member lookup, `None` on
non-objects. -/
def Json.get (j : Json) (k : String) : Option Json :=
  match j with
  | .obj kvs => kvs.lookup k
  | _ => none

/-- Model of `serde_json::Value::as_str()`: `Some` exactly on JSON strings. -/
def Json.as_str (j : Json) : Option String :=
  match j with
  | .str s => some s
  | _ => none

/-- Model of `ParsedInstruction` (program name plus parsed JSON payload). -/
structure ParsedInstruction where
  program : String
  parsed : Json

/-- Model of `UiParsedInstruction`: either a fully parsed instruction or a
partially decoded one (the latter is matched by `_ => continue` in the
source, so its payload is irrelevant and omitted). -/
inductive UiParsedInstruction where
  | parsed : ParsedInstruction → UiParsedInstruction
  | otherVariant : UiParsedInstruction

/-- Model of `UiInstruction`: parsed or compiled (compiled payload irrelevant:
the source only destructures the `Parsed` variant). -/
inductive UiInstruction where
  | parsed : UiParsedInstruction → UiInstruction
  | compiled : UiInstruction

/-- Model of `EncodedTransaction`: the source keeps only the `Json` variant
(line 65-68), whose `message.instructions` we carry directly; every other
encoding variant collapses to `binary`. -/
inductive EncodedTransaction where
  | json : List UiInstruction → EncodedTransaction
  | binary : EncodedTransaction

/-- One entry of `get_signatures_for_address`: signature string and
optional block time (`RpcConfirmedTransactionStatusWithSignature`). -/
structure SignatureRecord where
  signature : String
  block_time : Option Int

/-- The data of one pushed transfer line before string rendering:
block time, raw integer amount, and direction ("sent"/"received").
The source renders these via `format!` (with an f64 division) into the
string pushed onto `transfers`; the float rendering itself is not part
of this model. -/
structure TransferEvent where
  block_time : Int
  amount_u64 : Nat
  direction : String
deriving DecidableEq, Repr

/-- Model of `str::parse::<u64>()`: an optional leading `+`, then one or more
ASCII digits, value below 2^64; anything else fails. -/
def parseU64 (s : String) : Option Nat :=
  let cs := s.data
  let ds := match cs with
    | '+' :: rest => rest
    | _ => cs
  if ds.isEmpty then none
  else if ds.all (fun c => c.isDigit) then
    let n := ds.foldl (fun acc c => acc * 10 + (c.toNat - 48)) 0
    if n < 18446744073709551616 then some n else none
  else none

/-- Lines 94-98: if `info.mint` is present as a string it must equal the
USDC mint; a missing (or non-string) `mint` passes the check. -/
def mintOk (info : Json) : Bool :=
  match (info.get "mint").bind Json.as_str with
  | some mint => mint == USDC_MINT_ADDRESS
  | none => true

/-- Lines 103-110: the raw amount string comes from `info.amount`, else
from `info.tokenAmount.amount`, else defaults to "0". -/
def amountStr (info : Json) : String :=
  (((info.get "amount").bind Json.as_str) <|>
    ((info.get "tokenAmount").bind
      (fun token_amount => (token_amount.get "amount").bind Json.as_str))).getD "0"

/-- Line 112: `amount_str.parse::<u64>().unwrap_or(0)`. -/
def amount_u64 (info : Json) : Nat :=
  (parseU64 (amountStr info)).getD 0

/-- Lines 119-133: direction relative to the configured wallet.
`some "sent"` / `some "received"` on inclusion, `none` for `continue`. -/
def direction_of (source destination : Option String) : Option String :=
  match source with
  | some src =>
    if src == WALLET_ADDRESS then some "sent"
    else
      match destination with
      | some dest => if dest == WALLET_ADDRESS then some "received" else none
      | none => none
  | none => none

/-- Lines 74-147, the per-instruction classifier body for a
`UiParsedInstruction::Parsed` payload: program and type checks, mint
check, amount extraction, zero-amount exclusion, direction; produces the
data of the pushed line or `none` for `continue`. -/
def classifyParsed (p : ParsedInstruction) (block_time : Int) : Option TransferEvent :=
  if p.program ≠ "spl-token" then none
  else
    let instruction_type := ((p.parsed.get "type").bind Json.as_str).getD ""
    if instruction_type ≠ "transfer" ∧ instruction_type ≠ "transferChecked" then none
    else
      match p.parsed.get "info" with
      | none => none
      | some info =>
        if ¬ mintOk info then none
        else
          let source := (info.get "source").bind Json.as_str
          let destination := (info.get "destination").bind Json.as_str
          let amt := amount_u64 info
          if amt = 0 then none
          else
            match direction_of source destination with
            | none => none
            | some dir => some ⟨block_time, amt, dir⟩

/-- Lines 70-151: only `UiInstruction::Parsed(UiParsedInstruction::Parsed _)`
is classified; every other shape is skipped. -/
def classifyInstruction (ix : UiInstruction) (block_time : Int) : Option TransferEvent :=
  match ix with
  | .parsed (.parsed p) => classifyParsed p block_time
  | _ => none

/-- The external network collaborator: the two RPC operations and the
`Signature::from_str` parse of a signature string (line 54).  `parseSig`
tells whether the signature string parses; a failing parse propagates via
`?`, as do failures of the two RPC calls. -/
structure RpcClient where
  getSignatures : Option String → Except String (List SignatureRecord)
  parseSig : String → Bool
  getTransaction : String → Except String EncodedTransaction

/-- Outcome of the body of the `for sig_info in &sigs` loop for a single
record (lines 40-152): `skip` is `continue`, `cut` is `break 'outer`,
`fatalErr` is a `?` propagation, `events` are the pushed transfers. -/
inductive RecordStep where
  | skip : RecordStep
  | cut : RecordStep
  | fatalErr : String → RecordStep
  | events : List TransferEvent → RecordStep
deriving DecidableEq

/-- One iteration of the record loop (lines 40-152): skip records with no
block time; `break 'outer` strictly below the cutoff; parse the signature
and fetch the transaction (both `?`, hence fatal on failure); classify the
instructions of a `Json`-encoded transaction, skipping other encodings. -/
def processRecord (client : RpcClient) (cutoff_ts : Int) (r : SignatureRecord) :
    RecordStep :=
  match r.block_time with
  | none => .skip
  | some block_time =>
    if block_time < cutoff_ts then .cut
    else if ¬ client.parseSig r.signature then .fatalErr "signature parse error"
    else
      match client.getTransaction r.signature with
      | .error e => .fatalErr e
      | .ok enc_tx =>
        match enc_tx with
        | .json instructions =>
          .events (instructions.filterMap (fun ix => classifyInstruction ix block_time))
        | .binary => .skip

/-- How a whole page of records ended: cutoff break, fatal error, or fell
through to the cursor update at line 154. -/
inductive PageOutcome where
  | cut : PageOutcome
  | fatalErr : String → PageOutcome
  | done : PageOutcome
deriving DecidableEq

/-- Run the record loop over one page, in order, accumulating pushed
events; a `cut` or fatal error stops the page at that record, keeping the
events pushed by earlier records of the page. -/
def processRecords (client : RpcClient) (cutoff_ts : Int) :
    List SignatureRecord → List TransferEvent × PageOutcome
  | [] => ([], .done)
  | r :: rest =>
    match processRecord client cutoff_ts r with
    | .skip => processRecords client cutoff_ts rest
    | .cut => ([], .cut)
    | .fatalErr e => ([], .fatalErr e)
    | .events evs =>
      let tail := processRecords client cutoff_ts rest
      (evs ++ tail.1, tail.2)

/-- Result of the `'outer` loop: normal completion with the accumulated
transfers, a propagated error, or fuel exhaustion (the source loop has no
fuel; claims are stated at explicit fuel values). -/
inductive WalkResult where
  | ok : List TransferEvent → WalkResult
  | fatal : String → WalkResult
  | outOfFuel : List TransferEvent → WalkResult
deriving DecidableEq

/-- Model of the loop labelled outer at lines 26-155: request a page before the cursor
(fatal on listing failure), stop on an empty page, process the page's
records, stop after a page that hit the cutoff, otherwise advance the
cursor to the last record's signature and continue. -/
def backfillLoop (client : RpcClient) (cutoff_ts : Int) :
    Nat → Option String → List TransferEvent → WalkResult
  | 0, _, acc => .outOfFuel acc
  | fuel + 1, before_signature, acc =>
    match client.getSignatures before_signature with
    | .error e => .fatal e
    | .ok sigs =>
      if sigs.isEmpty then .ok acc
      else
        match processRecords client cutoff_ts sigs with
        | (evs, .cut) => .ok (acc ++ evs)
        | (_, .fatalErr e) => .fatal e
        | (evs, .done) =>
          backfillLoop client cutoff_ts fuel
            ((sigs.getLast?).map SignatureRecord.signature) (acc ++ evs)

/-- Lexicographic strict order on character sequences, by code point;
on well-formed UTF-8 this coincides with the byte-wise `Ord` that
`Vec<String>::sort` uses. -/
def charListLt : List Char → List Char → Bool
  | [], [] => false
  | [], _ :: _ => true
  | _ :: _, [] => false
  | a :: as, b :: bs =>
    if a.toNat < b.toNat then true
    else if b.toNat < a.toNat then false
    else charListLt as bs

/-- Rust's `String` strict order (`a < b`). -/
def strLt (a b : String) : Bool := charListLt a.data b.data

/-- Insert a string into a sorted list, before the first element not
strictly below it (this placement makes the sort stable). -/
def insertLine (x : String) : List String → List String
  | [] => [x]
  | y :: ys => if strLt y x then y :: insertLine x ys else x :: y :: ys

/-- Line 157, `transfers.sort()`: `slice::sort` is a stable sort by the
lexicographic `Ord` on `String`; modelled as stable insertion sort, which
computes the same ordering (stably sorted permutations are unique). -/
def sortTransfers : List String → List String
  | [] => []
  | x :: xs => insertLine x (sortTransfers xs)

/-- Lines 157-158: sort the rendered lines and join with newlines. -/
def renderBackfill (transfers : List String) : String :=
  String.intercalate "\n" (sortTransfers transfers)

/-- An HTTP response as produced by `warp::reply::with_status`. -/
structure HttpResponse where
  status : Nat
  body : String
deriving DecidableEq

/-- Lines 161-169, `handle_backfill`: 200 with the rendered data on
success, 500 with `Error: {e}` on failure. -/
def handle_backfill (result : Except String String) : HttpResponse :=
  match result with
  | .ok data => ⟨200, data⟩
  | .error e => ⟨500, "Error: " ++ e⟩

/-- Line 173, `warp::path("backfill").and(warp::get())`: the request
matches when the method is GET and the first path segment is
`backfill` (warp's `path` matches one leading segment). -/
def routeMatches (method : String) (pathSegments : List String) : Bool :=
  method == "GET" && pathSegments.head? == some "backfill"

/-- The served filter of lines 171-177: the one route built in `main`.
`result` is the outcome of `backfill_usdc_transfers` for this request;
requests not matching the route fall through (`none`, warp's 404). -/
def serve (result : Except String String) (method : String)
    (pathSegments : List String) : Option HttpResponse :=
  if routeMatches method pathSegments then some (handle_backfill result) else none

/-! Concrete inputs used to exercise the model: the scenario instruction of
the spec, a mint-as-number variant, two rendered lines sharing a
timestamp, and three small clients. -/

/-- Scenario instruction info of spec §8: transfer of 2500000 raw units of
the configured mint, sent from the configured wallet. -/
def exInfo : Json :=
  .obj [("mint", .str USDC_MINT_ADDRESS), ("source", .str WALLET_ADDRESS),
        ("destination", .str "OTHER"), ("amount", .str "2500000")]

/-- The scenario instruction payload. -/
def exParsed : ParsedInstruction :=
  ⟨"spl-token", .obj [("type", .str "transfer"), ("info", exInfo)]⟩

/-- The scenario instruction as a `UiInstruction`. -/
def exIx : UiInstruction := .parsed (.parsed exParsed)

/-- Same instruction info but with the mint present as the number 42
rather than a string. -/
def c5Info : Json :=
  .obj [("mint", .num 42), ("source", .str WALLET_ADDRESS),
        ("destination", .str "OTHER"), ("amount", .str "2500000")]

/-- Instruction payload carrying `c5Info`. -/
def c5Parsed : ParsedInstruction :=
  ⟨"spl-token", .obj [("type", .str "transfer"), ("info", c5Info)]⟩

/-- A rendered sent line (shape of line 140-146 of the source). -/
def lineSent : String := "2024-01-01T00:00:00+00:00 | -1.000000 USDC | sent"

/-- A rendered received line with the same timestamp as `lineSent`. -/
def lineRecv : String := "2024-01-01T00:00:00+00:00 | +0.500000 USDC | received"

/-- A client whose single in-window record fails to fetch. -/
def c1client : RpcClient :=
  { getSignatures := fun before =>
      match before with
      | none => .ok [⟨"sigA", some 100⟩]
      | some _ => .ok []
    parseSig := fun _ => true
    getTransaction := fun _ => .error "fetch failed" }

/-- A client whose single in-window record fetches with a non-parsed
encoding. -/
def binClient : RpcClient :=
  { getSignatures := fun before =>
      match before with
      | none => .ok [⟨"sigA", some 100⟩]
      | some _ => .ok []
    parseSig := fun _ => true
    getTransaction := fun _ => .ok .binary }

/-- A client with one good record carrying the scenario instruction,
followed by an empty page. -/
def okClient : RpcClient :=
  { getSignatures := fun before =>
      match before with
      | none => .ok [⟨"sigA", some 100⟩]
      | some _ => .ok []
    parseSig := fun _ => true
    getTransaction := fun _ => .ok (.json [exIx]) }

/-- A client whose first page holds one in-window record followed by one
record strictly older than the cutoff. -/
def cutClient : RpcClient :=
  { getSignatures := fun before =>
      match before with
      | none => .ok [⟨"sigA", some 100⟩, ⟨"sigOld", some (-5)⟩]
      | some _ => .ok []
    parseSig := fun _ => true
    getTransaction := fun _ => .ok (.json [exIx]) }

/-- A client for which no signature string parses. -/
def noParseClient : RpcClient :=
  { getSignatures := fun before =>
      match before with
      | none => .ok [⟨"sigA", some 100⟩]
      | some _ => .ok []
    parseSig := fun _ => false
    getTransaction := fun _ => .ok (.json [exIx]) }

/-! Order-theoretic facts about the string comparison used by the sort. -/

/-- Strict lexicographic comparison is asymmetric. -/
theorem charListLt_asymm (a b : List Char) (h : charListLt a b = true) :
    charListLt b a = false := by
  induction a generalizing b with
  | nil =>
    cases b with
    | nil => simp [charListLt] at h
    | cons y ys => simp [charListLt]
  | cons x xs ih =>
    cases b with
    | nil => simp [charListLt] at h
    | cons y ys =>
      simp only [charListLt] at h ⊢
      by_cases hxy : x.toNat < y.toNat
      · have hyx : ¬ y.toNat < x.toNat := by omega
        simp [hxy, hyx]
      · by_cases hyx : y.toNat < x.toNat
        · simp [hxy, hyx] at h
        · simp only [hxy, hyx, if_false] at h ⊢
          exact ih ys h

/-- Failures of strict lexicographic comparison compose. -/
theorem charListLt_neg_trans (a b c : List Char) (h1 : charListLt a b = false)
    (h2 : charListLt b c = false) : charListLt a c = false := by
  induction a generalizing b c with
  | nil =>
    cases b with
    | nil =>
      cases c with
      | nil => simp [charListLt]
      | cons z zs => simp [charListLt] at h2
    | cons y ys => simp [charListLt] at h1
  | cons x xs ih =>
    cases c with
    | nil => simp [charListLt]
    | cons z zs =>
      cases b with
      | nil => simp [charListLt] at h2
      | cons y ys =>
        simp only [charListLt] at h1 h2 ⊢
        by_cases hxy : x.toNat < y.toNat
        · simp [hxy] at h1
        · by_cases hyz : y.toNat < z.toNat
          · simp [hyz] at h2
          · by_cases hxz : x.toNat < z.toNat
            · omega
            · by_cases hzx : z.toNat < x.toNat
              · simp [hxz, hzx]
              · have hyx : ¬ y.toNat < x.toNat := by omega
                have hzy : ¬ z.toNat < y.toNat := by omega
                simp only [hxy, hyx, if_false] at h1
                simp only [hyz, hzy, if_false] at h2
                simp only [hxz, hzx, if_false]
                exact ih ys zs h1 h2

/-- Asymmetry, at the level of strings. -/
theorem strLt_asymm (a b : String) (h : strLt a b = true) : strLt b a = false :=
  charListLt_asymm a.data b.data h

/-- Composition of comparison failures, at the level of strings. -/
theorem strLt_neg_trans (a b c : String) (h1 : strLt a b = false)
    (h2 : strLt b c = false) : strLt a c = false :=
  charListLt_neg_trans a.data b.data c.data h1 h2

/-- Membership in an insertion. -/
theorem mem_insertLine (z x : String) (l : List String) :
    z ∈ insertLine x l ↔ z = x ∨ z ∈ l := by
  induction l with
  | nil => simp [insertLine]
  | cons y ys ih =>
    simp only [insertLine]
    cases hstep : strLt y x with
    | true =>
      simp only [if_true, List.mem_cons, ih]
      tauto
    | false =>
      simp only [Bool.false_eq_true, if_false, List.mem_cons]

/-- Insertion produces a permutation of consing. -/
theorem perm_insertLine (x : String) (l : List String) :
    (insertLine x l).Perm (x :: l) := by
  induction l with
  | nil => simp [insertLine]
  | cons y ys ih =>
    simp only [insertLine]
    cases hstep : strLt y x with
    | true =>
      simp only [if_true]
      exact (List.Perm.cons y ih).trans (List.Perm.swap x y ys)
    | false => simp

/-- Insertion preserves sortedness (no later line strictly below an
earlier one). -/
theorem sorted_insertLine (x : String) (l : List String)
    (h : l.Pairwise (fun a b => strLt b a = false)) :
    (insertLine x l).Pairwise (fun a b => strLt b a = false) := by
  induction l with
  | nil => simp [insertLine]
  | cons y ys ih =>
    rcases List.pairwise_cons.mp h with ⟨hy, hys⟩
    simp only [insertLine]
    cases hxy : strLt y x with
    | true =>
      simp only [if_true]
      refine List.pairwise_cons.mpr ⟨?_, ih hys⟩
      intro z hz
      rcases (mem_insertLine z x ys).mp hz with rfl | hz'
      · exact strLt_asymm y z hxy
      · exact hy z hz'
    | false =>
      simp only [Bool.false_eq_true, if_false]
      refine List.pairwise_cons.mpr ⟨?_, h⟩
      intro z hz
      rcases List.mem_cons.mp hz with rfl | hz'
      · exact hxy
      · exact strLt_neg_trans z y x (hy z hz') hxy

/-- The sort of line 157 produces a sorted list. -/
theorem sorted_sortTransfers (xs : List String) :
    (sortTransfers xs).Pairwise (fun a b => strLt b a = false) := by
  induction xs with
  | nil => simp [sortTransfers]
  | cons x xs ih => exact sorted_insertLine x (sortTransfers xs) ih

/-- The sort of line 157 permutes its input. -/
theorem perm_sortTransfers (xs : List String) :
    (sortTransfers xs).Perm xs := by
  induction xs with
  | nil => simp [sortTransfers]
  | cons x xs ih =>
    exact (perm_insertLine x (sortTransfers xs)).trans (List.Perm.cons x ih)

/-! Inversion facts about the classifier and the walker. -/

/-- An emitted event carries the block time it was classified at and a
positive raw amount (the zero-amount guard of line 113-115). -/
theorem classifyInstruction_some (ix : UiInstruction) (bt : Int) (e : TransferEvent)
    (h : classifyInstruction ix bt = some e) :
    e.block_time = bt ∧ 0 < e.amount_u64 := by
  cases ix with
  | compiled => simp [classifyInstruction] at h
  | parsed up =>
    cases up with
    | otherVariant => simp [classifyInstruction] at h
    | parsed p =>
      simp only [classifyInstruction, classifyParsed] at h
      repeat' split at h
      all_goals cases h
      all_goals exact ⟨rfl, Nat.pos_of_ne_zero (by assumption)⟩

/-- Events produced by one record are cutoff-respecting and positive. -/
theorem processRecord_events_ge (client : RpcClient) (cutoff_ts : Int)
    (r : SignatureRecord) (evs : List TransferEvent)
    (h : processRecord client cutoff_ts r = .events evs) :
    ∀ e ∈ evs, cutoff_ts ≤ e.block_time ∧ 0 < e.amount_u64 := by
  unfold processRecord at h
  cases hbt : r.block_time with
  | none => rw [hbt] at h; cases h
  | some bt =>
    rw [hbt] at h
    by_cases hcut : bt < cutoff_ts
    · simp [hcut] at h
    · by_cases hps : client.parseSig r.signature = true
      · cases htx : client.getTransaction r.signature with
        | error msg => simp [hcut, hps, htx] at h
        | ok enc =>
          cases enc with
          | binary => simp [hcut, hps, htx] at h
          | json instructions =>
            simp only [hcut, if_false, hps, not_true, htx] at h
            cases h
            intro e he
            rw [List.mem_filterMap] at he
            obtain ⟨ix, _, hix⟩ := he
            obtain ⟨hbt2, hamt⟩ := classifyInstruction_some ix bt e hix
            refine ⟨?_, hamt⟩
            rw [hbt2]
            omega
      · simp only [Bool.not_eq_true] at hps
        simp [hcut, hps] at h

/-- Events produced by one page are cutoff-respecting and positive. -/
theorem processRecords_events_ge (client : RpcClient) (cutoff_ts : Int)
    (rs : List SignatureRecord) :
    ∀ e ∈ (processRecords client cutoff_ts rs).1,
      cutoff_ts ≤ e.block_time ∧ 0 < e.amount_u64 := by
  induction rs with
  | nil => simp [processRecords]
  | cons r rest ih =>
    intro e he
    simp only [processRecords] at he
    cases hr : processRecord client cutoff_ts r <;> rw [hr] at he
    case skip => exact ih e he
    case cut => simp at he
    case fatalErr msg => simp at he
    case events evs =>
      rcases List.mem_append.mp (by simpa using he) with h1 | h2
      · exact processRecord_events_ge client cutoff_ts r evs hr e h1
      · exact ih e h2

/-- Every event accumulated by the walk either was already in the
accumulator or respects the cutoff and has positive amount. -/
theorem backfillLoop_ok_mem (client : RpcClient) (cutoff_ts : Int) :
    ∀ (fuel : Nat) (before : Option String) (acc evs : List TransferEvent),
      backfillLoop client cutoff_ts fuel before acc = .ok evs →
      ∀ e ∈ evs, e ∈ acc ∨ (cutoff_ts ≤ e.block_time ∧ 0 < e.amount_u64) := by
  intro fuel
  induction fuel with
  | zero =>
    intro before acc evs h
    simp [backfillLoop] at h
  | succ n ih =>
    intro before acc evs h
    simp only [backfillLoop] at h
    cases hs : client.getSignatures before with
    | error msg => simp [hs] at h
    | ok sigs =>
      cases hemp : sigs.isEmpty with
      | true =>
        simp only [hs, hemp, if_true] at h
        cases h
        intro e he
        exact Or.inl he
      | false =>
        rcases hp : processRecords client cutoff_ts sigs with ⟨pevs, pout⟩
        cases pout with
        | cut =>
          simp only [hs, hemp, Bool.false_eq_true, if_false, hp] at h
          cases h
          intro e he
          rcases List.mem_append.mp he with h1 | h2
          · exact Or.inl h1
          · refine Or.inr ?_
            have hge := processRecords_events_ge client cutoff_ts sigs e
            rw [hp] at hge
            exact hge h2
        | fatalErr msg => simp [hs, hemp, hp] at h
        | done =>
          simp only [hs, hemp, Bool.false_eq_true, if_false, hp] at h
          intro e he
          rcases ih _ _ _ h e he with hacc | hgood
          · rcases List.mem_append.mp hacc with h1 | h2
            · exact Or.inl h1
            · refine Or.inr ?_
              have hge := processRecords_events_ge client cutoff_ts sigs e
              rw [hp] at hge
              exact hge h2
          · exact Or.inr hgood

/-! Claim theorems. -/

/-- C10: a record whose blockTime is absent is skipped outright (for every
client, hence independently of the fetch operation — it is never fetched),
contributes no events, and the page walk simply continues with the
remaining records; in particular it never terminates the walk. -/
theorem C10_missing_blockTime_skipped (client : RpcClient) (cutoff_ts : Int)
    (r : SignatureRecord) (rest : List SignatureRecord)
    (h : r.block_time = none) :
    processRecord client cutoff_ts r = .skip ∧
    processRecords client cutoff_ts (r :: rest) =
      processRecords client cutoff_ts rest := by
  have h1 : processRecord client cutoff_ts r = .skip := by
    unfold processRecord
    rw [h]
  refine ⟨h1, ?_⟩
  simp only [processRecords, h1]

/-- Witness for C10 at a concrete record and client. -/
theorem C10_witness :
    processRecord c1client 0 ⟨"sigX", none⟩ = .skip ∧
    processRecords c1client 0 (⟨"sigX", none⟩ :: [⟨"sigA", some 100⟩]) =
      processRecords c1client 0 [⟨"sigA", some 100⟩] :=
  C10_missing_blockTime_skipped c1client 0 ⟨"sigX", none⟩ [⟨"sigA", some 100⟩] rfl

/-- C7: an empty page ends the walk immediately (one request, returning the
accumulated events), and after a non-empty page with no cutoff break and no
error the cursor advances to the signature of the last record of the page
before the next request. -/
theorem C7_pagination (client : RpcClient) (cutoff_ts : Int) (fuel : Nat)
    (before : Option String) (acc : List TransferEvent) :
    (client.getSignatures before = .ok [] →
      backfillLoop client cutoff_ts (fuel + 1) before acc = .ok acc) ∧
    (∀ sigs, client.getSignatures before = .ok sigs → sigs ≠ [] →
      (processRecords client cutoff_ts sigs).2 = .done →
      backfillLoop client cutoff_ts (fuel + 1) before acc =
        backfillLoop client cutoff_ts fuel
          ((sigs.getLast?).map SignatureRecord.signature)
          (acc ++ (processRecords client cutoff_ts sigs).1)) := by
  constructor
  · intro hs
    simp [backfillLoop, hs]
  · intro sigs hs hne hdone
    have hemp : sigs.isEmpty = false := by
      cases sigs with
      | nil => exact absurd rfl hne
      | cons a l => rfl
    rcases hp : processRecords client cutoff_ts sigs with ⟨pevs, pout⟩
    rw [hp] at hdone
    simp only at hdone
    subst hdone
    simp only [backfillLoop, hs, hemp, Bool.false_eq_true, if_false, hp]

/-- Witness for C7 at the concrete client `okClient`. -/
theorem C7_witness :
    backfillLoop okClient 0 (0 + 1) (some "sigA") [] = .ok [] ∧
    backfillLoop okClient 0 (1 + 1) none [] =
      backfillLoop okClient 0 1
        ((([⟨"sigA", some 100⟩] : List SignatureRecord).getLast?).map
          SignatureRecord.signature)
        ([] ++ (processRecords okClient 0 [⟨"sigA", some 100⟩]).1) :=
  ⟨(C7_pagination okClient 0 0 (some "sigA") []).1 rfl,
   (C7_pagination okClient 0 1 none []).2 [⟨"sigA", some 100⟩] rfl
     (by simp) rfl⟩

/-- C3 counterexample: two rendered lines with the same leading RFC 3339
timestamp (the first 25 characters), inserted sent-line first, come out of
the sort of line 157 in the opposite order: the tie is broken by the rest
of the line (the `+` of received sorts before the `-` of sent), not by
insertion order. -/
theorem C3_counterexample :
    lineSent.data.take 25 = lineRecv.data.take 25 ∧
    lineSent ≠ lineRecv ∧
    sortTransfers [lineSent, lineRecv] = [lineRecv, lineSent] :=
  ⟨by decide, by decide, by decide⟩

/-- C3 (amended): the Aggregator sorts the rendered event lines
lexicographically as strings: the output is a permutation of the input and
no line is strictly below an earlier one; because every line begins with a
fixed-width RFC 3339 timestamp this is ascending by timestamp, but ties
between equal timestamps are ordered by the remainder of the line (amount
sign, digits, direction label), not by insertion order. -/
theorem C3_sorted_lexicographically (xs : List String) :
    (sortTransfers xs).Perm xs ∧
    (sortTransfers xs).Pairwise (fun a b => strLt b a = false) :=
  ⟨perm_sortTransfers xs, sorted_sortTransfers xs⟩

/-- C2: a record strictly older than the cutoff triggers the break; page
processing stops at that record; the walk then ends within that page (no
further request); every event of a completed walk has blockTime at or
after the cutoff; and a record whose blockTime equals the cutoff exactly
is not a break (it is processed). -/
theorem C2_window_boundary (client : RpcClient) (cutoff_ts : Int) :
    (∀ (r : SignatureRecord) (bt : Int), r.block_time = some bt →
      bt < cutoff_ts → processRecord client cutoff_ts r = .cut) ∧
    (∀ (r : SignatureRecord) (rest : List SignatureRecord),
      processRecord client cutoff_ts r = .cut →
      processRecords client cutoff_ts (r :: rest) = ([], .cut)) ∧
    (∀ (fuel : Nat) (before : Option String) (acc : List TransferEvent)
        (sigs : List SignatureRecord),
      client.getSignatures before = .ok sigs → sigs ≠ [] →
      (processRecords client cutoff_ts sigs).2 = .cut →
      backfillLoop client cutoff_ts (fuel + 1) before acc =
        .ok (acc ++ (processRecords client cutoff_ts sigs).1)) ∧
    (∀ (fuel : Nat) (before : Option String) (evs : List TransferEvent),
      backfillLoop client cutoff_ts fuel before [] = .ok evs →
      ∀ e ∈ evs, cutoff_ts ≤ e.block_time) ∧
    (∀ r : SignatureRecord, r.block_time = some cutoff_ts →
      processRecord client cutoff_ts r ≠ .cut) := by
  refine ⟨?_, ?_, ?_, ?_, ?_⟩
  · intro r bt hbt hlt
    unfold processRecord
    rw [hbt]
    simp [hlt]
  · intro r rest hcut
    simp [processRecords, hcut]
  · intro fuel before acc sigs hs hne hcut
    have hemp : sigs.isEmpty = false := by
      cases sigs with
      | nil => exact absurd rfl hne
      | cons a l => rfl
    rcases hp : processRecords client cutoff_ts sigs with ⟨pevs, pout⟩
    rw [hp] at hcut
    simp only at hcut
    subst hcut
    simp only [backfillLoop, hs, hemp, Bool.false_eq_true, if_false, hp]
  · intro fuel before evs h e he
    rcases backfillLoop_ok_mem client cutoff_ts fuel before [] evs h e he with h1 | h2
    · simp at h1
    · exact h2.1
  · intro r hbt
    by_cases hps : client.parseSig r.signature = true
    · cases htx : client.getTransaction r.signature with
      | error msg => simp [processRecord, hbt, hps, htx]
      | ok enc =>
        cases enc with
        | json instructions => simp [processRecord, hbt, hps, htx]
        | binary => simp [processRecord, hbt, hps, htx]
    · simp only [Bool.not_eq_true] at hps
      simp [processRecord, hbt, hps]

/-- Witness for C2 at the concrete client `cutClient` (cutoff 0, one page
holding an in-window record then a record at blockTime -5). -/
theorem C2_witness :
    processRecord cutClient 0 ⟨"sigOld", some (-5)⟩ = .cut ∧
    processRecords cutClient 0 (⟨"sigOld", some (-5)⟩ :: [⟨"sigA", some 100⟩]) =
      ([], .cut) ∧
    backfillLoop cutClient 0 (0 + 1) none [] =
      .ok ([] ++
        (processRecords cutClient 0 [⟨"sigA", some 100⟩, ⟨"sigOld", some (-5)⟩]).1) ∧
    (0 : Int) ≤ (⟨100, 2500000, "sent"⟩ : TransferEvent).block_time ∧
    processRecord cutClient 0 ⟨"sigEq", some 0⟩ ≠ .cut := by
  obtain ⟨c1, c2, c3, c4, c5⟩ := C2_window_boundary cutClient 0
  have hcut : processRecord cutClient 0 ⟨"sigOld", some (-5)⟩ = .cut :=
    c1 ⟨"sigOld", some (-5)⟩ (-5) rfl (by decide)
  refine ⟨hcut, c2 ⟨"sigOld", some (-5)⟩ [⟨"sigA", some 100⟩] hcut, ?_, ?_, c5 ⟨"sigEq", some 0⟩ rfl⟩
  · exact c3 0 none [] [⟨"sigA", some 100⟩, ⟨"sigOld", some (-5)⟩] rfl (by simp) rfl
  · exact c4 1 none [⟨100, 2500000, "sent"⟩] rfl ⟨100, 2500000, "sent"⟩ (by simp)

/-- C1 counterexample: with an in-window record whose transaction fetch
fails, the whole backfill aborts with that error — it is not skipped and
the walk does not continue. -/
theorem C1_counterexample :
    c1client.getTransaction "sigA" = .error "fetch failed" ∧
    backfillLoop c1client 0 2 none [] = .fatal "fetch failed" :=
  ⟨rfl, rfl⟩

/-- C1 (amended): a fetched transaction whose encoding is not the
structured (Json-parsed) form is skipped and the walk continues; but a
failure to fetch an individual transaction aborts the whole backfill
(the `?` on the fetch), exactly like a malformed signature string. -/
theorem C1_fetch_failure_handling (client : RpcClient) (cutoff_ts : Int)
    (r : SignatureRecord) (bt : Int) (hbt : r.block_time = some bt)
    (hin : ¬ bt < cutoff_ts) :
    (client.parseSig r.signature = true →
      client.getTransaction r.signature = .ok .binary →
      processRecord client cutoff_ts r = .skip) ∧
    (∀ rest, processRecord client cutoff_ts r = .skip →
      processRecords client cutoff_ts (r :: rest) =
        processRecords client cutoff_ts rest) ∧
    (∀ msg, client.parseSig r.signature = true →
      client.getTransaction r.signature = .error msg →
      processRecord client cutoff_ts r = .fatalErr msg) ∧
    (client.parseSig r.signature = false →
      processRecord client cutoff_ts r = .fatalErr "signature parse error") := by
  refine ⟨?_, ?_, ?_, ?_⟩
  · intro hps htx
    simp [processRecord, hbt, hin, hps, htx]
  · intro rest hskip
    simp only [processRecords, hskip]
  · intro msg hps htx
    simp [processRecord, hbt, hin, hps, htx]
  · intro hps
    simp [processRecord, hbt, hin, hps]

/-- Witness for C1 at concrete clients: non-Json encoding is a skip and
the page continues; a fetch error and a failing signature parse are
fatal. -/
theorem C1_witness :
    processRecord binClient 0 ⟨"sigA", some 100⟩ = .skip ∧
    processRecords binClient 0 (⟨"sigA", some 100⟩ :: []) =
      processRecords binClient 0 [] ∧
    processRecord c1client 0 ⟨"sigA", some 100⟩ = .fatalErr "fetch failed" ∧
    processRecord noParseClient 0 ⟨"sigA", some 100⟩ =
      .fatalErr "signature parse error" := by
  obtain ⟨a1, a2, -, -⟩ :=
    C1_fetch_failure_handling binClient 0 ⟨"sigA", some 100⟩ 100 rfl (by decide)
  obtain ⟨-, -, a3, -⟩ :=
    C1_fetch_failure_handling c1client 0 ⟨"sigA", some 100⟩ 100 rfl (by decide)
  obtain ⟨-, -, -, a4⟩ :=
    C1_fetch_failure_handling noParseClient 0 ⟨"sigA", some 100⟩ 100 rfl (by decide)
  exact ⟨a1 rfl rfl, a2 [] (a1 rfl rfl), a3 "fetch failed" rfl rfl, a4 rfl⟩

/-- C4: when the source equals the configured wallet the direction is
sent regardless of destination; otherwise a destination equal to the
wallet gives received; an absent source, or neither field matching,
excludes the instruction; and no instruction is classified both ways. -/
theorem C4_direction_rules (src dst : Option String) :
    (direction_of (some WALLET_ADDRESS) dst = some "sent") ∧
    (∀ s, src = some s → s ≠ WALLET_ADDRESS →
      direction_of src (some WALLET_ADDRESS) = some "received") ∧
    (direction_of none dst = none) ∧
    (∀ s, src = some s → s ≠ WALLET_ADDRESS → dst ≠ some WALLET_ADDRESS →
      direction_of src dst = none) ∧
    (¬ (direction_of src dst = some "sent" ∧
        direction_of src dst = some "received")) := by
  refine ⟨?_, ?_, ?_, ?_, ?_⟩
  · simp [direction_of]
  · rintro s rfl hs
    simp [direction_of, hs]
  · simp [direction_of]
  · rintro s rfl hs hd
    rcases dst with - | d
    · simp [direction_of, hs]
    · have hd2 : d ≠ WALLET_ADDRESS := by
        intro h
        exact hd (by rw [h])
      simp [direction_of, hs, hd2]
  · rintro ⟨h1, h2⟩
    rw [h1] at h2
    simp at h2

/-- Witness for C4 at concrete sources and destinations. -/
theorem C4_witness :
    direction_of (some WALLET_ADDRESS) (some "OTHER") = some "sent" ∧
    direction_of (some "OTHER") (some WALLET_ADDRESS) = some "received" ∧
    direction_of none (some WALLET_ADDRESS) = none ∧
    direction_of (some "OTHER") (some "ELSE") = none := by
  obtain ⟨-, b2, -, b4, -⟩ := C4_direction_rules (some "OTHER") (some "ELSE")
  exact ⟨(C4_direction_rules (some "X") (some "OTHER")).1,
         b2 "OTHER" rfl (by decide),
         (C4_direction_rules (some "X") (some WALLET_ADDRESS)).2.2.1,
         b4 "OTHER" rfl (by decide) (by decide)⟩

/-- C5 counterexample: an instruction whose `mint` field is present (as
the JSON number 42, hence not equal to the configured asset identifier)
is not excluded: it classifies to a transfer event, because the mint
check of lines 94-98 only fires when the field is present as a string. -/
theorem C5_counterexample :
    c5Info.get "mint" = some (.num 42) ∧
    (c5Info.get "mint").isSome = true ∧
    ((c5Info.get "mint").bind Json.as_str) = none ∧
    classifyInstruction (.parsed (.parsed c5Parsed)) 0 =
      some ⟨0, 2500000, "sent"⟩ :=
  ⟨rfl, rfl, rfl, rfl⟩

/-- C5 (amended): if a mint field is present as a string it must equal
the configured asset identifier exactly or the instruction is excluded;
if the mint field is absent — or present but not a string — the
instruction is tentatively accepted and proceeds through classification. -/
theorem C5_mint_policy (info : Json) (p : ParsedInstruction) (bt : Int) :
    (∀ s, (info.get "mint").bind Json.as_str = some s →
      s ≠ USDC_MINT_ADDRESS → mintOk info = false) ∧
    ((info.get "mint").bind Json.as_str = some USDC_MINT_ADDRESS →
      mintOk info = true) ∧
    ((info.get "mint").bind Json.as_str = none → mintOk info = true) ∧
    (mintOk info = false → p.parsed.get "info" = some info →
      classifyParsed p bt = none) := by
  refine ⟨?_, ?_, ?_, ?_⟩
  · intro s hs hneq
    simp [mintOk, hs, hneq]
  · intro hs
    simp [mintOk, hs]
  · intro hs
    simp [mintOk, hs]
  · intro hm hinfo
    simp only [classifyParsed]
    split
    · rfl
    · split
      · rfl
      · rw [hinfo]
        simp [hm]

/-- Witness for C5 at concrete infos: a wrong string mint is rejected and
excludes the instruction, the right mint and an absent mint pass. -/
theorem C5_witness :
    mintOk (Json.obj [("mint", Json.str "BAD")]) = false ∧
    mintOk exInfo = true ∧
    mintOk (Json.obj []) = true ∧
    classifyParsed
      ⟨"spl-token", Json.obj [("type", Json.str "transfer"),
        ("info", Json.obj [("mint", Json.str "BAD")])]⟩ 0 = none := by
  obtain ⟨m1, -, -, m4⟩ := C5_mint_policy (Json.obj [("mint", Json.str "BAD")])
    ⟨"spl-token", Json.obj [("type", Json.str "transfer"),
      ("info", Json.obj [("mint", Json.str "BAD")])]⟩ 0
  have hbad : mintOk (Json.obj [("mint", Json.str "BAD")]) = false :=
    m1 "BAD" rfl (by decide)
  exact ⟨hbad,
         (C5_mint_policy exInfo exParsed 0).2.1 rfl,
         (C5_mint_policy (Json.obj []) exParsed 0).2.2.1 rfl,
         m4 hbad rfl⟩

/-- C6: the raw amount string comes from a direct string `amount` field
when present, else from `tokenAmount.amount`, else defaults to "0"; a
string that fails to parse as a u64 gives raw amount 0; and every emitted
event has raw amount strictly positive. -/
theorem C6_amount_policy (info : Json) :
    (∀ s, (info.get "amount").bind Json.as_str = some s → amountStr info = s) ∧
    ((info.get "amount").bind Json.as_str = none →
      ∀ t, ((info.get "tokenAmount").bind
          (fun token_amount => (token_amount.get "amount").bind Json.as_str)) =
            some t →
        amountStr info = t) ∧
    ((info.get "amount").bind Json.as_str = none →
      ((info.get "tokenAmount").bind
          (fun token_amount => (token_amount.get "amount").bind Json.as_str)) =
            none →
      amountStr info = "0") ∧
    (parseU64 (amountStr info) = none → amount_u64 info = 0) ∧
    (∀ (ix : UiInstruction) (bt : Int) (e : TransferEvent),
      classifyInstruction ix bt = some e → 0 < e.amount_u64) := by
  refine ⟨?_, ?_, ?_, ?_, ?_⟩
  · intro s hs
    simp [amountStr, hs]
  · intro hs t ht
    simp [amountStr, hs, ht]
  · intro hs ht
    simp [amountStr, hs, ht]
  · intro hparse
    simp [amount_u64, hparse]
  · intro ix bt e h
    exact (classifyInstruction_some ix bt e h).2

/-- Witness for C6 at concrete infos: direct amount, nested amount,
missing amount, unparseable amount, and a concrete emitted event. -/
theorem C6_witness :
    amountStr exInfo = "2500000" ∧
    amountStr (Json.obj [("tokenAmount", Json.obj [("amount", Json.str "77")])]) =
      "77" ∧
    amountStr (Json.obj []) = "0" ∧
    amount_u64 (Json.obj [("amount", Json.str "abc")]) = 0 ∧
    0 < (⟨100, 2500000, "sent"⟩ : TransferEvent).amount_u64 := by
  obtain ⟨a1, -, -, -, a5⟩ := C6_amount_policy exInfo
  refine ⟨a1 "2500000" rfl, ?_, ?_, ?_, ?_⟩
  · exact (C6_amount_policy
      (Json.obj [("tokenAmount", Json.obj [("amount", Json.str "77")])])).2.1
      rfl "77" rfl
  · exact (C6_amount_policy (Json.obj [])).2.2.1 rfl rfl
  · exact (C6_amount_policy (Json.obj [("amount", Json.str "abc")])).2.2.2.1 rfl
  · exact a5 exIx 100 ⟨100, 2500000, "sent"⟩ rfl

/-- C9: the service exposes the single GET route on the fixed path
segment `backfill`; a request matching it is answered 200 with the
rendered data when the backfill succeeded and 500 with an error message
when it failed; non-matching requests are not handled by this route. -/
theorem C9_http_surface (result : Except String String) (method : String)
    (pathSegments : List String) :
    (routeMatches method pathSegments = true →
      ∀ data, result = .ok data →
        serve result method pathSegments = some ⟨200, data⟩) ∧
    (routeMatches method pathSegments = true →
      ∀ e, result = .error e →
        serve result method pathSegments = some ⟨500, "Error: " ++ e⟩) ∧
    (routeMatches method pathSegments = false →
      serve result method pathSegments = none) ∧
    routeMatches "GET" ["backfill"] = true ∧
    (routeMatches method pathSegments = true →
      method = "GET" ∧ pathSegments.head? = some "backfill") := by
  refine ⟨?_, ?_, ?_, rfl, ?_⟩
  · rintro hroute data rfl
    simp [serve, hroute, handle_backfill]
  · rintro hroute e rfl
    simp [serve, hroute, handle_backfill]
  · intro hroute
    simp [serve, hroute]
  · intro hroute
    have h := hroute
    simp only [routeMatches, Bool.and_eq_true, beq_iff_eq] at h
    exact h

/-- Witness for C9 at concrete requests and backfill results. -/
theorem C9_witness :
    serve (.ok "lines") "GET" ["backfill"] = some ⟨200, "lines"⟩ ∧
    serve (.error "boom") "GET" ["backfill"] = some ⟨500, "Error: boom"⟩ ∧
    serve (.ok "lines") "POST" ["backfill"] = none :=
  ⟨(C9_http_surface (.ok "lines") "GET" ["backfill"]).1 rfl "lines" rfl,
   (C9_http_surface (.error "boom") "GET" ["backfill"]).2.1 rfl "boom" rfl,
   (C9_http_surface (.ok "lines") "POST" ["backfill"]).2.2.1 rfl⟩

end UsdcIndex
